import Mathlib

/-!
Verification of the scrape-orchestration core of `LinkedInScrapper.py`.

The Python source is shallowly embedded: each relevant Python function is
translated into an executable Lean definition of the same name (camel-cased,
without the leading underscore).  Python strings are `String` (lists of
characters), dictionaries with string keys are association lists, `None` is
`Option.none`, and the shared mutable `ScraperAPI` object is an explicit
`ApiState` record threaded through the entry points.  The regular expressions
used by the heuristic extractors are embedded via a small backtracking
matcher (`reMatch`) whose alternation/option/greedy preferences follow the
semantics of Python's `re` module.
-/

/-- Python ASCII whitespace, as matched by `str.strip`, `str.split` and the
regex class used in the source. -/
def pyIsSpace (c : Char) : Bool :=
  c = ' ' || c = '\t' || c = '\n' || c = '\r' || c = '\x0b' || c = '\x0c'

/-- Drop a trailing run of whitespace characters. -/
def dropTrailingWs : List Char → List Char
  | [] => []
  | c :: rest =>
    let r := dropTrailingWs rest
    if r = [] ∧ pyIsSpace c then [] else c :: r

/-- Python `str.strip()` on a character list: remove leading and trailing
whitespace. -/
def pyStripL (l : List Char) : List Char :=
  dropTrailingWs (l.dropWhile pyIsSpace)

/-- Python `str.strip()`. -/
def pyStrip (s : String) : String := ⟨pyStripL s.data⟩

/-- Python `str.lower()` (ASCII letters, which is all the source compares). -/
def pyLower (s : String) : String := ⟨s.data.map Char.toLower⟩

/-- Substring test on character lists: Python's `needle in hay`. -/
def containsSub (hay needle : List Char) : Bool :=
  (List.range (hay.length + 1)).any fun i =>
    decide (needle = (hay.drop i).take needle.length)

/-- Python's `needle in hay` on strings. -/
def strContains (hay needle : String) : Bool := containsSub hay.data needle.data

/-- Python `url.split("?")[0]`: the part of the string before the first `?`. -/
def splitQ (s : String) : String := ⟨s.data.takeWhile (fun c => ¬ (c = '?'))⟩

/-- Python `int(str)` restricted to the usual decimal forms: optional
surrounding whitespace, an optional sign, then at least one digit.
`none` models a raised `ValueError`. -/
def pyIntOfString (s : String) : Option Int :=
  let digitsVal : List Char → Option Nat := fun l =>
    if l ≠ [] ∧ l.all Char.isDigit then
      some (l.foldl (fun acc c => acc * 10 + (c.toNat - '0'.toNat)) 0)
    else none
  match pyStripL s.data with
  | '+' :: rest => (digitsVal rest).map Int.ofNat
  | '-' :: rest => (digitsVal rest).map (fun n => -(n : Int))
  | rest => (digitsVal rest).map Int.ofNat

/-- Python truthiness fallback `value or default` for an optional string
(`None` and `""` are falsy). -/
def orElseStr (v : Option String) (d : String) : String :=
  match v with
  | none => d
  | some s => if s = "" then d else s

/-! ## Request payload and its normalization (`_normalize_payload`) -/

/-- The JS-side request payload: each field may be absent (`None`). -/
structure Payload where
  email : Option String := none
  password : Option String := none
  searchTerm : Option String := none
  notes : Option String := none
  pages : Option String := none
  sortBy : Option String := none
  datePosted : Option String := none
  location : Option String := none
  industry : Option String := none
  title : Option String := none
  company : Option String := none

/-- The page-limit computation of `_normalize_payload` (lines 222-226):
`payload.get("pages") or 1`, then `max(1, int(page_limit))` with a
`ValueError` falling back to `1`.  Totality of this function models the
fact that the Python code never raises on a string/absent `pages` field. -/
def pageLimitOf (pages : Option String) : Int :=
  match pages with
  | none => 1
  | some s =>
    if s = "" then 1
    else
      match pyIntOfString s with
      | some n => max 1 n
      | none => 1

/-- Result of `_normalize_payload`. -/
structure NormalizedData where
  email : String
  password : String
  searchTerm : String
  notes : String
  pageLimit : Int
  sortBy : String
  datePosted : String
  fLocation : String
  fIndustry : String
  fTitle : String
  fCompany : String

/-- Source `_normalize_payload` (lines 221-242). -/
def normalizePayload (p : Payload) : NormalizedData where
  email := pyStrip (orElseStr p.email "")
  password := orElseStr p.password ""
  searchTerm := pyStrip (orElseStr p.searchTerm "")
  notes := pyStrip (orElseStr p.notes "")
  pageLimit := pageLimitOf p.pages
  sortBy := pyStrip (orElseStr p.sortBy "relevance")
  datePosted := pyStrip (orElseStr p.datePosted "")
  fLocation := pyStrip (orElseStr p.location "")
  fIndustry := pyStrip (orElseStr p.industry "")
  fTitle := pyStrip (orElseStr p.title "")
  fCompany := pyStrip (orElseStr p.company "")

/-! ## Shared job state (`ScraperAPI`) -/

/-- The shared mutable state of `ScraperAPI`: log lines, job status, last
output path, the resume event flag, and the number of scrape worker threads
started so far (so that "no new worker thread" is expressible). -/
structure ApiState where
  logs : List String
  status : String
  outputPath : Option String
  resumeEvent : Bool
  scrapeThreadCount : Nat
deriving DecidableEq

/-- Log formatting of `_push_log`: `"[HH:MM:SS] message"`; the timestamp is passed
explicitly. -/
def fmtLog (t msg : String) : String := "[" ++ t ++ "] " ++ msg

/-- Source `_push_log` (lines 92-95). -/
def pushLog (s : ApiState) (t msg : String) : ApiState :=
  { s with logs := s.logs ++ [fmtLog t msg] }

/-- Source `start_scrape` (lines 106-117).  `t` is the wall-clock timestamp used for
the log line; the returned string is the `"status"` entry of the reply dict.
Starting the worker thread is modelled by incrementing
`scrapeThreadCount`. -/
def startScrape (s : ApiState) (_p : Payload) (t : String) : ApiState × String :=
  if s.status = "running" then (s, "running")
  else
    let s1 : ApiState :=
      { s with status := "running", logs := [], outputPath := none, resumeEvent := false }
    let s2 := pushLog s1 t "Preparing the browser and logging in..."
    ({ s2 with scrapeThreadCount := s2.scrapeThreadCount + 1 }, "running")

/-- Source `resume_after_verification` (lines 119-124). -/
def resumeAfterVerification (s : ApiState) (t : String) : ApiState × String :=
  if ¬ (s.status = "verification") then (s, s.status)
  else
    (pushLog { s with resumeEvent := true } t
      "Continue clicked. Resuming after manual verification.", "running")

/-- The continuation of `_handle_verification_if_needed` once
`self._resume_event.wait()` has been satisfied (lines 276-277): the woken
worker logs an acknowledgment and sets the status back to `"running"`. -/
def verificationWake (s : ApiState) (t : String) : ApiState :=
  { pushLog s t "Verification acknowledged, continuing." with status := "running" }

/-- The preflight portion of `_scrape` (lines 154-159): normalize the
payload and bail out with status `"error"` when a required field is empty.
The boolean result records whether execution proceeds to `_create_driver`
(line 165); on the early-return path it is `false`, i.e. no browser session
is ever requested. -/
def scrapePreflight (s : ApiState) (p : Payload) (t : String) : ApiState × Bool :=
  let d := normalizePayload p
  if d.email = "" ∨ d.password = "" ∨ d.searchTerm = "" then
    ({ pushLog s t "Missing required fields." with status := "error" }, false)
  else (s, true)

/-! ## Claims about the job-control surface -/

/-- C4: page-limit normalization never raises (it is a total function) and
never yields a value below 1: an absent `pages` field defaults to 1, the
string `"0"` is coerced to 1, and any string `int()` rejects (modelled by
`pyIntOfString _ = none`) is coerced to 1. -/
theorem c4_page_limit_safe :
    (∀ p : Option String, 1 ≤ pageLimitOf p) ∧
    pageLimitOf none = 1 ∧
    pageLimitOf (some "0") = 1 ∧
    (∀ s : String, pyIntOfString s = none → pageLimitOf (some s) = 1) := by
  refine ⟨?_, by decide, by decide, ?_⟩
  · intro p
    match p with
    | none => simp [pageLimitOf]
    | some s =>
      by_cases h : s = ""
      · simp [pageLimitOf, h]
      · simp only [pageLimitOf, h, if_false]
        match pyIntOfString s with
        | some n => exact le_max_left 1 n
        | none => exact le_refl 1
  · intro s h
    by_cases he : s = ""
    · simp [pageLimitOf, he]
    · simp [pageLimitOf, he, h]

/-- Witness for C4 at the concrete inputs `"0"` and the non-numeric `"abc"`. -/
theorem c4_page_limit_safe_witness :
    pageLimitOf (some "abc") = 1 ∧ pageLimitOf (some "0") = 1 := by
  exact ⟨c4_page_limit_safe.2.2.2 "abc" (by decide), c4_page_limit_safe.2.2.1⟩

/-- C5: when the status is `"running"`, `start_scrape` replies
`{"status": "running"}` and leaves the whole shared state unchanged — logs
are not cleared, the output path is not reset, the resume event is
untouched, and no worker thread is started. -/
theorem c5_start_scrape_noop_while_running
    (s : ApiState) (p : Payload) (t : String) (h : s.status = "running") :
    startScrape s p t = (s, "running") := by
  simp [startScrape, h]

/-- Witness for C5 at a concrete running state. -/
theorem c5_start_scrape_noop_while_running_witness :
    startScrape
      ⟨["[10:00:00] old line"], "running", some "output/old.csv", true, 3⟩
      {} "10:00:01"
      = (⟨["[10:00:00] old line"], "running", some "output/old.csv", true, 3⟩,
         "running") :=
  c5_start_scrape_noop_while_running _ _ _ rfl

/-- C6: `resume_after_verification` is a no-op returning the current status
whenever the status is not `"verification"`; in status `"verification"` it
sets the resume event and replies `"running"`; and once the woken worker
(`verificationWake`, lines 276-277) has moved the status to `"running"`, a
second call observes a status different from `"verification"` and is a
no-op, so the call is idempotent after the first success. -/
theorem c6_resume_after_verification (s : ApiState) (t : String) :
    (s.status ≠ "verification" → resumeAfterVerification s t = (s, s.status)) ∧
    (s.status = "verification" →
      (resumeAfterVerification s t).2 = "running" ∧
      ((resumeAfterVerification s t).1).resumeEvent = true ∧
      (∀ t1 t2 : String,
        (verificationWake ((resumeAfterVerification s t).1) t1).status = "running" ∧
        resumeAfterVerification (verificationWake ((resumeAfterVerification s t).1) t1) t2
          = (verificationWake ((resumeAfterVerification s t).1) t1, "running"))) := by
  constructor
  · intro h
    simp [resumeAfterVerification, h]
  · intro h
    refine ⟨by simp [resumeAfterVerification, h], by simp [resumeAfterVerification, h, pushLog], ?_⟩
    intro t1 t2
    refine ⟨rfl, ?_⟩
    simp [resumeAfterVerification, verificationWake]

/-- Witness for C6 at concrete states: a non-verification state (first
hypothesis) and a verification state (second hypothesis). -/
theorem c6_resume_after_verification_witness :
    resumeAfterVerification ⟨[], "idle", none, false, 0⟩ "09:00:00"
      = (⟨[], "idle", none, false, 0⟩, "idle") ∧
    (resumeAfterVerification ⟨[], "verification", none, false, 1⟩ "09:00:00").2
      = "running" := by
  exact ⟨(c6_resume_after_verification ⟨[], "idle", none, false, 0⟩ "09:00:00").1 (by decide),
    ((c6_resume_after_verification ⟨[], "verification", none, false, 1⟩ "09:00:00").2 rfl).1⟩

/-- C8: when the normalized email, password or search term is empty, the
scrape job logs a message and moves the status to `"error"` without ever
reaching driver creation (the boolean component is `false`: no browser
session is opened on this path). -/
theorem c8_missing_fields_no_session
    (s : ApiState) (p : Payload) (t : String)
    (h : (normalizePayload p).email = "" ∨ (normalizePayload p).password = "" ∨
      (normalizePayload p).searchTerm = "") :
    (scrapePreflight s p t).2 = false ∧
    ((scrapePreflight s p t).1).status = "error" ∧
    ((scrapePreflight s p t).1).logs = s.logs ++ [fmtLog t "Missing required fields."] := by
  simp [scrapePreflight, h, pushLog]

/-- Witness for C8 at a concrete empty payload. -/
theorem c8_missing_fields_no_session_witness :
    (scrapePreflight ⟨[], "running", none, false, 1⟩ {} "09:00:00").2 = false :=
  (c8_missing_fields_no_session ⟨[], "running", none, false, 1⟩ {} "09:00:00"
    (Or.inl (by decide))).1

/-! ## A small backtracking regex engine

Only the combinators needed by the source's patterns: character classes,
sequencing, ordered alternation, greedy option and greedy class star.
`reMatch r s k` matches `r` against a prefix of `s` and calls the
continuation `k` on the rest; the first success in Python's backtracking
preference order (alternatives left to right, greedy repetition longest
first) is returned, and a `none` from `k` makes the engine backtrack. -/

inductive RE where
  | eps : RE
  | cls : (Char → Bool) → RE
  | seq : RE → RE → RE
  | alt : RE → RE → RE
  | opt : RE → RE
  | star : (Char → Bool) → RE

/-- Greedy Kleene star over a character class, with backtracking. -/
def matchStarCls {α : Type} (p : Char → Bool) (k : List Char → Option α) :
    List Char → Option α
  | [] => k []
  | c :: rest =>
    if p c then (matchStarCls p k rest).orElse (fun _ => k (c :: rest))
    else k (c :: rest)

/-- The backtracking matcher. -/
def reMatch {α : Type} : RE → List Char → (List Char → Option α) → Option α
  | .eps, s, k => k s
  | .cls p, s, k =>
    match s with
    | [] => none
    | c :: rest => if p c then k rest else none
  | .seq a b, s, k => reMatch a s (fun s1 => reMatch b s1 k)
  | .alt a b, s, k => (reMatch a s k).orElse (fun _ => reMatch b s k)
  | .opt a, s, k => (reMatch a s k).orElse (fun _ => k s)
  | .star p, s, k => matchStarCls p k s

/-- Sequence a list of regexes. -/
def reSeqs (l : List RE) : RE := l.foldr RE.seq RE.eps

/-- Ordered alternation of a non-empty list (first alternative preferred). -/
def reAltList : List RE → RE
  | [] => RE.cls (fun _ => false)
  | [r] => r
  | r :: rest => RE.alt r (reAltList rest)

/-- A single literal character. -/
def reChr (c : Char) : RE := RE.cls (fun d => d = c)

/-- A case-sensitive literal string. -/
def reLit (s : String) : RE := reSeqs (s.data.map reChr)

/-- A case-insensitive literal string (the source compiles these patterns
with `re.IGNORECASE`). -/
def reLitCI (s : String) : RE :=
  reSeqs (s.data.map (fun c => RE.cls (fun d => d.toLower = c.toLower)))

/-- One-or-more repetition of a character class (`[..]+`). -/
def rePlusCls (p : Char → Bool) : RE := RE.seq (RE.cls p) (RE.star p)

/-- Exactly `n` copies of `r`. -/
def reTimes (r : RE) : Nat → RE
  | 0 => RE.eps
  | n + 1 => RE.seq r (reTimes r n)

/-- At most `n` copies of `r`, greedy (`(r?)` chain, longest first). -/
def reUpTo (r : RE) : Nat → RE
  | 0 => RE.eps
  | n + 1 => RE.opt (RE.seq r (reUpTo r n))

/-- Greedy bounded repetition `r{m,n}`. -/
def reRange (r : RE) (m n : Nat) : RE := RE.seq (reTimes r m) (reUpTo r (n - m))

/-- Python `re.search` returning the matched substring (group 0) of the leftmost
match, or `none`. -/
def reSearchTok (r : RE) : List Char → Option (List Char)
  | [] => none
  | c :: rest =>
    match reMatch r (c :: rest) some with
    | some rem => some ((c :: rest).take ((c :: rest).length - rem.length))
    | none => reSearchTok r rest

/-- Python `re.findall` (no capture groups): leftmost non-overlapping matches,
scanning resumes after each match.  The fuel argument is an upper bound on
the number of scanning steps; it is initialized with the input length. -/
def findallAux (r : RE) : Nat → List Char → List (List Char)
  | 0, _ => []
  | _, [] => []
  | Nat.succ fuel, c :: rest =>
    match reMatch r (c :: rest) some with
    | some rem =>
      let len := (c :: rest).length - rem.length
      if len = 0 then findallAux r fuel rest
      else ((c :: rest).take len) :: findallAux r fuel rem
    | none => findallAux r fuel rest

/-- Python `re.findall` on a string. -/
def findall (r : RE) (s : String) : List String :=
  (findallAux r s.data.length s.data).map (fun l => (⟨l⟩ : String))

/-- Search for a labelled pattern `pre ( [cap]{minL,maxL} )` and return the
content of the capture group of the leftmost match: the engine backtracks
into `pre` if the greedy capture after it is shorter than `minL`. -/
def searchLabeled (pre : RE) (cap : Char → Bool) (minL maxL : Nat) :
    List Char → Option (List Char)
  | [] => none
  | c :: rest =>
    (reMatch pre (c :: rest) (fun s1 =>
      let t := (s1.takeWhile cap).take maxL
      if minL ≤ t.length then some t else none)).orElse
    (fun _ => searchLabeled pre cap minL maxL rest)

/-! ## Character classes and the source's patterns -/

/-- Class of `[A-Za-z0-9._%+-]` (email local part). -/
def emailLocalC (c : Char) : Bool :=
  c.isAlphanum || c = '.' || c = '_' || c = '%' || c = '+' || c = '-'

/-- Class of `[A-Za-z0-9.-]` (email domain part). -/
def emailDomC (c : Char) : Bool := c.isAlphanum || c = '.' || c = '-'

/-- Class of `\S`. -/
def nonSpaceC (c : Char) : Bool := ¬ pyIsSpace c

/-- Class of `[-\s]` (phone separators). -/
def phoneSepC (c : Char) : Bool := c = '-' || pyIsSpace c

/-- Pattern `r"[A-Za-z0-9._%+-]+@[A-Za-z0-9.-]+\.[A-Za-z]{2,}"` (line 498). -/
def emailRE : RE :=
  reSeqs [rePlusCls emailLocalC, reChr '@', rePlusCls emailDomC, reChr '.',
    RE.cls Char.isAlpha, RE.cls Char.isAlpha, RE.star Char.isAlpha]

/-- Pattern `r"(?:\+?\d{1,3}[-\s]?)?(?:\(?\d{2,4}\)?[-\s]?)?\d{3,4}[-\s]?\d{3,4}"`
(line 499). -/
def phoneRE : RE :=
  reSeqs [
    RE.opt (reSeqs [RE.opt (reChr '+'), reRange (RE.cls Char.isDigit) 1 3,
      RE.opt (RE.cls phoneSepC)]),
    RE.opt (reSeqs [RE.opt (reChr '('), reRange (RE.cls Char.isDigit) 2 4,
      RE.opt (reChr ')'), RE.opt (RE.cls phoneSepC)]),
    reRange (RE.cls Char.isDigit) 3 4, RE.opt (RE.cls phoneSepC),
    reRange (RE.cls Char.isDigit) 3 4]

/-- Pattern `r"https?://\S+|www\.\S+"` (line 500). -/
def urlRE : RE :=
  RE.alt (reSeqs [reLit "http", RE.opt (reChr 's'), reLit "://", rePlusCls nonSpaceC])
    (reSeqs [reLit "www.", rePlusCls nonSpaceC])

/-- Label part of the job-title pattern (line 437):
`(?:job title|title|position|role|opening|hiring for)\s*[:\-]\s*`,
case-insensitive. -/
def titleLabelRE : RE :=
  reSeqs [
    reAltList [reLitCI "job title", reLitCI "title", reLitCI "position",
      reLitCI "role", reLitCI "opening", reLitCI "hiring for"],
    RE.star pyIsSpace, RE.cls (fun c => c = ':' || c = '-'), RE.star pyIsSpace]

/-- Label part of the location pattern (line 452):
`(?:location|based in)\s*[:\-]\s*`, case-insensitive. -/
def locLabelRE : RE :=
  reSeqs [reAltList [reLitCI "location", reLitCI "based in"],
    RE.star pyIsSpace, RE.cls (fun c => c = ':' || c = '-'), RE.star pyIsSpace]

/-- Capture class `[^\n•\-]` shared by the job-title and location patterns. -/
def labelCapC (c : Char) : Bool := ¬ (c = '\n' || c = '•' || c = '-')

/-- Currency alternation `\$|USD|PKR|INR|EUR|GBP|AED` (case-insensitive). -/
def currencyRE : RE :=
  reAltList [reChr '$', reLitCI "usd", reLitCI "pkr", reLitCI "inr",
    reLitCI "eur", reLitCI "gbp", reLitCI "aed"]

/-- Pattern `\d[\d,]*`. -/
def numBlockRE : RE :=
  RE.seq (RE.cls Char.isDigit) (RE.star (fun c => Char.isDigit c || c = ','))

/-- First salary pattern (line 514):
`(?:\$|USD|PKR|INR|EUR|GBP|AED)\s?\d[\d,]*(?:\s?-\s?(?:..cur..)?\s?\d[\d,]*)?`. -/
def salaryRE1 : RE :=
  reSeqs [currencyRE, RE.opt (RE.cls pyIsSpace), numBlockRE,
    RE.opt (reSeqs [RE.opt (RE.cls pyIsSpace), reChr '-', RE.opt (RE.cls pyIsSpace),
      RE.opt currencyRE, RE.opt (RE.cls pyIsSpace), numBlockRE])]

/-- Second salary pattern (line 515):
`\d[\d,]*\s?(?:per year|per annum|per month|per hour)`, case-insensitive. -/
def salaryRE2 : RE :=
  reSeqs [numBlockRE, RE.opt (RE.cls pyIsSpace),
    reAltList [reLitCI "per year", reLitCI "per annum", reLitCI "per month",
      reLitCI "per hour"]]

/-! ## More Python string helpers used by the extractors -/

/-- Python `re.split` with a character-class pattern: split the string at every
occurrence of one of `seps`, keeping empty pieces. -/
def splitOnCharsL (seps : List Char) : List Char → List (List Char)
  | [] => [[]]
  | c :: rest =>
    if seps.contains c then [] :: splitOnCharsL seps rest
    else
      match splitOnCharsL seps rest with
      | [] => [[c]]
      | w :: ws => (c :: w) :: ws

/-- Python `re.split` with a character-class pattern, on strings. -/
def splitOnChars (seps : List Char) (s : String) : List String :=
  (splitOnCharsL seps s.data).map (fun l => (⟨l⟩ : String))

/-- Raw line splitting on `\r\n`, `\n`, `\r`, `\x0b`, `\x0c` (keeps a final
empty piece, removed by `pySplitlines`). -/
def splitLinesRaw : List Char → List (List Char)
  | [] => [[]]
  | '\r' :: '\n' :: rest => [] :: splitLinesRaw rest
  | c :: rest =>
    if c = '\n' ∨ c = '\r' ∨ c = '\x0b' ∨ c = '\x0c' then [] :: splitLinesRaw rest
    else
      match splitLinesRaw rest with
      | [] => [[c]]
      | w :: ws => (c :: w) :: ws

/-- Python `str.splitlines()`. -/
def pySplitlines (s : String) : List String :=
  if s.data = [] then []
  else
    let raw := splitLinesRaw s.data
    let raw := if raw.getLast? = some [] then raw.dropLast else raw
    raw.map (fun l => (⟨l⟩ : String))

/-- Python `line.split(":", 1)[-1]`: the text after the first colon, or the
whole string when there is no colon. -/
def afterFirstColon (s : String) : String :=
  if s.data.contains ':' then ⟨((s.data.dropWhile (fun c => ¬ (c = ':'))).drop 1)⟩
  else s

/-- Python `hay.find(needle)`: index of the first occurrence, `none` for
`-1`. -/
def findSubIdx (hay needle : List Char) : Option Nat :=
  (List.range (hay.length + 1)).find? fun i =>
    decide (needle = (hay.drop i).take needle.length)

/-- Lexicographic order on code points, as Python compares strings. -/
def charListLe : List Char → List Char → Bool
  | [], _ => true
  | _ :: _, [] => false
  | a :: xs, b :: ys =>
    if a.val < b.val then true
    else if b.val < a.val then false
    else charListLe xs ys

/-- Python `<=` on strings. -/
def strLeB (a b : String) : Bool := charListLe a.data b.data

/-- Insert into a sorted list (ascending by `strLeB`). -/
def insertSorted (x : String) : List String → List String
  | [] => [x]
  | y :: ys => if strLeB x y then x :: y :: ys else y :: insertSorted x ys

/-- Ascending insertion sort; `sortStr (l.dedup)` models Python's
`sorted(set(l))`. -/
def sortStr (l : List String) : List String := l.foldr insertSorted []

/-! ## The heuristic text extractors (`_extract_*`) -/

/-- Keyword set of the job-title fallback (line 445). -/
def jtKeywords : List String :=
  ["developer", "engineer", "designer", "manager", "analyst", "specialist",
   "consultant", "assistant", "architect", "lead", "intern"]

/-- Source `_extract_job_title_from_text` (lines 433-447).  Note that the fallback
iterates over `re.split(r"[\\n•]", text)`, i.e. the text split at every
backslash, letter `n` and bullet character (the raw string `r"[\\n•]"`
denotes the class of those three characters, not of newline and bullet). -/
def extractJobTitleFromText (text : String) : String :=
  if text = "" then ""
  else
    match searchLabeled titleLabelRE labelCapC 3 80 text.data with
    | some cap => pyStrip ⟨cap⟩
    | none =>
      match (splitOnChars ['\\', 'n', '•'] text).find? (fun line =>
        jtKeywords.any (fun k => strContains (pyLower line) k)) with
      | some line => pyStrip line
      | none => ""

/-- Source `_extract_location_from_text` (lines 449-458); the same `[\\n•]` split
appears in its fallback. -/
def extractLocationFromText (text : String) : String :=
  if text = "" then ""
  else
    match searchLabeled locLabelRE labelCapC 2 80 text.data with
    | some cap => pyStrip ⟨cap⟩
    | none =>
      match (splitOnChars ['\\', 'n', '•'] text).find? (fun line =>
        strContains (pyLower line) "location") with
      | some line => pyStrip (afterFirstColon line)
      | none => ""

/-- Source `_extract_job_type_from_text` (lines 460-470). -/
def extractJobTypeFromText (text : String) : String :=
  let lowered := pyLower text
  if strContains lowered "full-time" || strContains lowered "full time" then "Full-time"
  else if strContains lowered "part-time" || strContains lowered "part time" then "Part-time"
  else if strContains lowered "contract" then "Contract"
  else if strContains lowered "intern" then "Internship"
  else ""

/-- Source `_extract_workplace_type_from_text` (lines 472-480). -/
def extractWorkplaceTypeFromText (text : String) : String :=
  let lowered := pyLower text
  if strContains lowered "remote" then "Remote"
  else if strContains lowered "hybrid" then "Hybrid"
  else if strContains lowered "on-site" || strContains lowered "onsite" then "On-site"
  else ""

/-- Inner loop of `_extract_section_from_text` (lines 485-492). -/
def extractSectionAux (text lowered : List Char) : List String → String
  | [] => ""
  | kw :: rest =>
    match findSubIdx lowered kw.data with
    | none => extractSectionAux text lowered rest
    | some idx =>
      let tl := text.drop idx
      let lines := ((pySplitlines ⟨tl⟩).map pyStrip).filter (fun l => ¬ (l = ""))
      String.intercalate " " (lines.take 4)

/-- Source `_extract_section_from_text` (lines 482-493). -/
def extractSectionFromText (text : String) (keywords : List String) : String :=
  if text = "" then ""
  else extractSectionAux text.data (pyLower text).data keywords

/-- Python `";".join(l)`. -/
def joinSemi (l : List String) : String := String.intercalate ";" l

/-- Source `_extract_contact_details` (lines 495-508): find all emails, phone-like
groups and URLs; deduplicate and sort each category; keep the phone tokens
whose stripped length is at least 7; join the non-empty categories with
`";"`, emails first, then URLs, then phones. -/
def extractContactDetails (text : String) : String :=
  if text = "" then ""
  else
    let emails := findall emailRE text
    let phones := findall phoneRE text
    let urls := findall urlRE text
    let parts : List String :=
      (if emails = [] then [] else [joinSemi (sortStr emails.dedup)]) ++
      (if urls = [] then [] else [joinSemi (sortStr urls.dedup)]) ++
      (if phones = [] then []
       else [joinSemi (sortStr (((phones.map pyStrip).filter
         (fun p => 7 ≤ p.length)).dedup))])
    joinSemi (parts.filter (fun p => ¬ (p = "")))

/-- Source `_extract_salary` (lines 510-521). -/
def extractSalary (text : String) : String :=
  if text = "" then ""
  else
    match reSearchTok salaryRE1 text.data with
    | some tok => pyStrip ⟨tok⟩
    | none =>
      match reSearchTok salaryRE2 text.data with
      | some tok => pyStrip ⟨tok⟩
      | none => ""

/-! ## Result cards, row parsing and the CSV sink -/

/-- The data of one result card that the pipeline reads from the DOM:
the candidate texts of the ordered selector fallback lists consumed by
`_safe_text` (author, time label, snippet), the `href` attributes of the
card's `a.app-aware-link` anchors (an absent attribute is `""`), the card's
own `data-urn` attribute (`""` when absent, line 423) and the `data-urn`
attributes of its descendants (lines 426-430). -/
structure Card where
  authorTexts : List String := []
  timeTexts : List String := []
  snippetTexts : List String := []
  anchorHrefs : List String := []
  dataUrn : String := ""
  descUrns : List String := []

/-- Source `_safe_text` (lines 349-355): the first candidate whose stripped text is
non-empty, stripped. -/
def safeText : List String → String
  | [] => ""
  | t :: rest =>
    let s := pyStrip t
    if s = "" then safeText rest else s

/-- Python `s.startswith(pre)`. -/
def strStartsWith (s pre : String) : Bool :=
  decide (pre.data = s.data.take pre.data.length)

/-- Source `_extract_post_link` (lines 411-431). -/
def extractPostLink (c : Card) : String :=
  let urls := c.anchorHrefs.filter (fun u => ¬ (u = ""))
  match urls.find? (fun u => strContains u "/posts/" || strContains u "/feed/update") with
  | some u => splitQ u
  | none =>
  match urls.find? (fun u => strContains u "urn:li:activity:") with
  | some u => "https://www.linkedin.com/feed/update/" ++ splitQ u
  | none =>
  match urls.find? (fun u => strStartsWith u "http") with
  | some u => splitQ u
  | none =>
  if strContains c.dataUrn "urn:li:activity:" then
    "https://www.linkedin.com/feed/update/" ++ c.dataUrn
  else
  match c.descUrns.find? (fun u => strContains u "urn:li:activity:") with
  | some u => "https://www.linkedin.com/feed/update/" ++ u
  | none =>
  match urls with
  | [] => ""
  | u :: _ => splitQ u

/-- Source `clean_csv_field` (lines 54-56): collapse every whitespace run to a
single space, then strip. -/
def collapseWsAux : Bool → List Char → List Char
  | _, [] => []
  | prev, c :: rest =>
    if pyIsSpace c then
      if prev then collapseWsAux true rest
      else ' ' :: collapseWsAux true rest
    else c :: collapseWsAux false rest

/-- Source `clean_csv_field`. -/
def cleanCsvField (s : String) : String := ⟨pyStripL (collapseWsAux false s.data)⟩

/-- Python `dict.get(k, "")` on an association list. -/
def dictGet (d : List (String × String)) (k : String) : String :=
  match d.find? (fun p => p.1 = k) with
  | some p => p.2
  | none => ""

/-- Source `_parse_post_card` (lines 357-409): extract the raw fields, run the
heuristic extractors on the snippet, drop the card when author, snippet and
post URL are all empty, otherwise emit the 12-key row dict. -/
def parsePostCard (c : Card) : Option (List (String × String)) :=
  let author := safeText c.authorTexts
  let postTime := safeText c.timeTexts
  let snippet := safeText c.snippetTexts
  let postUrl := extractPostLink c
  let jobTitle := extractJobTitleFromText snippet
  let location := extractLocationFromText snippet
  let jobType := extractJobTypeFromText snippet
  let workplace := extractWorkplaceTypeFromText snippet
  let qualifications := extractSectionFromText snippet
    ["qualification", "requirements", "must have", "should have", "education"]
  let skills := extractSectionFromText snippet
    ["skills", "tech stack", "technologies", "experience with"]
  let contact := extractContactDetails snippet
  let salary := extractSalary snippet
  if author = "" ∧ snippet = "" ∧ postUrl = "" then none
  else some [
    ("Author name", cleanCsvField author),
    ("Job Tittle", cleanCsvField jobTitle),
    ("Location", cleanCsvField location),
    ("Job type(full time/ Part-Time)", cleanCsvField jobType),
    ("Remote/Onsite", cleanCsvField workplace),
    ("Job Description", cleanCsvField snippet),
    ("Post Date/Time", cleanCsvField postTime),
    ("required Qualification", cleanCsvField qualifications),
    ("Required SKills", cleanCsvField skills),
    ("Post Link", cleanCsvField postUrl),
    ("Contact Destil (email/web-link/Contact number)", cleanCsvField contact),
    ("salary Pkg", cleanCsvField salary)]

/-- The header list of `_write_csv` (lines 892-905), verbatim from the
source. -/
def csvHeaders : List String :=
  ["Author name",
   "Job Tittle",
   "Location",
   "Job type(full time/ Part-Time)",
   "Remote/Onsite",
   "Job Description",
   "Post Date/Time",
   "required Qualification",
   "Required SKills",
   "Post Link",
   "Contact Destil (email/web-link/Contact number)",
   "salary Pkg"]

/-- Does a CSV field need quoting under the default (`excel`) dialect? -/
def csvNeedsQuote (f : String) : Bool :=
  f.data.any (fun c => c = ',' || c = '"' || c = '\r' || c = '\n')

/-- Double every quote character. -/
def csvEscape (f : String) : String :=
  ⟨f.data.foldr (fun c acc => if c = '"' then '"' :: '"' :: acc else c :: acc) []⟩

/-- One CSV field under the default dialect (minimal quoting). -/
def csvField (f : String) : String :=
  if csvNeedsQuote f then "\"" ++ csvEscape f ++ "\"" else f

/-- One CSV record: comma-separated fields terminated by `\r\n`. -/
def csvRecord (fs : List String) : String :=
  String.intercalate "," (fs.map csvField) ++ "\r\n"

/-- The records written by `_write_csv` (lines 906-910): the fixed header,
then one record per row, each field fetched by header key and
whitespace-normalized. -/
def writeCsvRecords (rows : List (List (String × String))) : List (List String) :=
  csvHeaders :: rows.map (fun r => csvHeaders.map (fun h => cleanCsvField (dictGet r h)))

/-- The file content produced by `_write_csv`: the file is opened with
encoding `utf-8-sig`, so the text begins with a byte-order marker. -/
def writeCsv (rows : List (List (String × String))) : String :=
  "\uFEFF" ++ String.join ((writeCsvRecords rows).map csvRecord)

/-! ## Claims about the extraction pipeline -/

/-- C1: a card yields no row if and only if the extracted author text, the
description snippet and the canonicalized post URL are all empty; by
contraposition, any one non-empty field guarantees that a row is emitted,
whatever the other inferred fields are. -/
theorem c1_row_retention (c : Card) :
    parsePostCard c = none ↔
      (safeText c.authorTexts = "" ∧ safeText c.snippetTexts = "" ∧
        extractPostLink c = "") := by
  by_cases h : safeText c.authorTexts = "" ∧ safeText c.snippetTexts = "" ∧
      extractPostLink c = ""
  · simp [parsePostCard, h]
  · simp [parsePostCard, h]

/-- C10: employment-type classification is bare case-insensitive substring
matching in the fixed priority order full-time, part-time, contract, intern,
so a text containing `"intern"` (also inside words like `"internal"` or
`"international"`) with no higher-priority marker classifies as
`"Internship"`, both spellings of full-time/part-time are recognized, and a
text with both full-time and part-time markers classifies as
`"Full-time"`. -/
theorem c10_job_type_priority (t : String) :
    ((strContains (pyLower t) "full-time" || strContains (pyLower t) "full time") = true →
      extractJobTypeFromText t = "Full-time") ∧
    (strContains (pyLower t) "intern" = true →
      (strContains (pyLower t) "full-time" || strContains (pyLower t) "full time") = false →
      (strContains (pyLower t) "part-time" || strContains (pyLower t) "part time") = false →
      strContains (pyLower t) "contract" = false →
      extractJobTypeFromText t = "Internship") ∧
    extractJobTypeFromText "internal audit position" = "Internship" ∧
    extractJobTypeFromText "international" = "Internship" ∧
    extractJobTypeFromText "full time" = "Full-time" ∧
    extractJobTypeFromText "Full-Time" = "Full-time" ∧
    extractJobTypeFromText "part time" = "Part-time" ∧
    extractJobTypeFromText "Part-Time" = "Part-time" ∧
    extractJobTypeFromText "both full-time and part-time openings" = "Full-time" := by
  refine ⟨?_, ?_, by decide, by decide, by decide, by decide, by decide, by decide, by decide⟩
  · intro h
    simp [extractJobTypeFromText, h]
  · intro h1 h2 h3 h4
    simp [extractJobTypeFromText, h1, h2, h3, h4]

/-- Witness for C10 at concrete inputs discharging the substring
hypotheses. -/
theorem c10_job_type_priority_witness :
    extractJobTypeFromText "full time or part time" = "Full-time" ∧
    extractJobTypeFromText "hiring an intern" = "Internship" := by
  exact ⟨(c10_job_type_priority "full time or part time").1 (by decide),
    (c10_job_type_priority "hiring an intern").2.1 (by decide) (by decide) (by decide)
      (by decide)⟩

/-- The job-title fallback as the claim words it: scan the text's lines
for a role keyword and return the first matching line verbatim, else the
empty string.  (Comparison definition for claim C3; the source instead
splits the text at every backslash, letter n and bullet.) -/
def specJobTitleLineScan (text : String) : String :=
  match (pySplitlines text).find? (fun line =>
    jtKeywords.any (fun k => strContains (pyLower line) k)) with
  | some line => line
  | none => ""

/-- C3: on the single-line text `"looking for engineer"` the source's
fallback returns the empty string — the raw string `r"[\\n•]"` splits at
the literal letter `n`, so no fragment contains the keyword — while the
claimed line scan returns the whole line. -/
theorem c3_job_title_fallback_divergence :
    extractJobTitleFromText "looking for engineer" = "" ∧
    specJobTitleLineScan "looking for engineer" = "looking for engineer" := by
  constructor
  · decide
  · decide

/-- Auxiliary: `find?` is the head of `filter`. -/
theorem find?_eq_head_filter {α : Type} (p : α → Bool) :
    ∀ l : List α, l.find? p = (l.filter p).head? := by
  intro l
  induction l with
  | nil => rfl
  | cons x xs ih =>
    by_cases h : p x
    · rw [List.find?_cons_of_pos _ h, List.filter_cons_of_pos h]
      rfl
    · rw [List.find?_cons_of_neg _ h, List.filter_cons_of_neg h, ih]

/-- The post-link canonicalization as the amended claim words it: prefer an
anchor href with a posts/feed-update segment, else one with an activity-URN
marker (rewritten, query stripped), else the first http-prefixed href
(query stripped); otherwise fall back to an activity URN on the card or a
descendant (rewritten, query kept); failing all that, the first non-empty
href with its query stripped; and the empty string only when there is no
non-empty href and no URN at all. -/
def specPostLink (c : Card) : String :=
  let urls := c.anchorHrefs.filter (fun u => ¬ (u = ""))
  match (urls.filter (fun u => strContains u "/posts/" || strContains u "/feed/update")).head? with
  | some u => splitQ u
  | none =>
  match (urls.filter (fun u => strContains u "urn:li:activity:")).head? with
  | some u => "https://www.linkedin.com/feed/update/" ++ splitQ u
  | none =>
  match (urls.filter (fun u => strStartsWith u "http")).head? with
  | some u => splitQ u
  | none =>
  if strContains c.dataUrn "urn:li:activity:" then
    "https://www.linkedin.com/feed/update/" ++ c.dataUrn
  else
  match (c.descUrns.filter (fun u => strContains u "urn:li:activity:")).head? with
  | some u => "https://www.linkedin.com/feed/update/" ++ u
  | none =>
  match urls.head? with
  | some u => splitQ u
  | none => ""

/-- C9 (amended): `_extract_post_link` implements exactly the preference
chain of the amended claim, and the query string is stripped, e.g.
`".../posts/123?trk=abc"` canonicalizes to `".../posts/123"`. -/
theorem c9_post_link_amended :
    (∀ c : Card, extractPostLink c = specPostLink c) ∧
    extractPostLink { anchorHrefs := ["https://www.linkedin.com/posts/123?trk=abc"] } =
      "https://www.linkedin.com/posts/123" := by
  constructor
  · have hfin : ∀ l : List String,
        (match l.head? with | some u => splitQ u | none => "") =
        (match l with | [] => "" | u :: _ => splitQ u) := by
      intro l; cases l <;> rfl
    intro c
    unfold extractPostLink specPostLink
    simp only [find?_eq_head_filter, hfin]
  · decide

/-- C9 counterexample: a card whose only anchor href matches none of the
claimed qualifying shapes (no posts/feed-update segment, no activity URN,
not http-prefixed) and which carries no `data-urn`; the claim says the
result is the empty string, but the source's final fallback returns the
first href with its query stripped. -/
theorem c9_post_link_counterexample :
    (["mailto:jobs@acme.com?subject=role"].all (fun u =>
      !(strContains u "/posts/" || strContains u "/feed/update" ||
        strContains u "urn:li:activity:" || strStartsWith u "http"))) = true ∧
    extractPostLink { anchorHrefs := ["mailto:jobs@acme.com?subject=role"] } =
      "mailto:jobs@acme.com" ∧
    ¬ ("mailto:jobs@acme.com" = "") := by
  refine ⟨by decide, by decide, by decide⟩

/-- Membership in `insertSorted`. -/
theorem mem_insertSorted (x y : String) :
    ∀ l : List String, y ∈ insertSorted x l ↔ y = x ∨ y ∈ l := by
  intro l
  induction l with
  | nil => simp [insertSorted]
  | cons z zs ih =>
    unfold insertSorted
    by_cases h : strLeB x z
    · rw [if_pos h]
      simp only [List.mem_cons]
    · rw [if_neg h]
      simp only [List.mem_cons, ih]
      tauto

/-- Insertion preserves freshness: `insertSorted` preserves `Nodup` when the element is fresh. -/
theorem nodup_insertSorted (x : String) :
    ∀ l : List String, x ∉ l → l.Nodup → (insertSorted x l).Nodup := by
  intro l
  induction l with
  | nil => intro _ _; simp [insertSorted]
  | cons z zs ih =>
    intro hx hn
    unfold insertSorted
    by_cases h : strLeB x z
    · rw [if_pos h, List.nodup_cons]
      exact ⟨hx, hn⟩
    · rw [if_neg h, List.nodup_cons]
      rw [List.nodup_cons] at hn
      rw [List.mem_cons, not_or] at hx
      refine ⟨?_, ih hx.2 hn.2⟩
      rw [mem_insertSorted]
      rintro (hz | hz)
      · exact hx.1 hz.symm
      · exact hn.1 hz

/-- Membership in `sortStr`. -/
theorem mem_sortStr (y : String) : ∀ l : List String, y ∈ sortStr l ↔ y ∈ l := by
  intro l
  induction l with
  | nil => simp [sortStr]
  | cons x xs ih =>
    unfold sortStr at ih ⊢
    rw [List.foldr_cons, mem_insertSorted, ih, List.mem_cons]

/-- Sorting preserves distinctness: `sortStr` preserves `Nodup`. -/
theorem nodup_sortStr : ∀ l : List String, l.Nodup → (sortStr l).Nodup := by
  intro l
  induction l with
  | nil => intro _; simp [sortStr]
  | cons x xs ih =>
    intro hn
    rw [List.nodup_cons] at hn
    unfold sortStr
    rw [List.foldr_cons]
    exact nodup_insertSorted x _ (fun hm => hn.1 ((mem_sortStr x xs).mp hm)) (ih hn.2)

/-- C7: each contact category is deduplicated with set semantics
(`sorted(set(...))` yields a duplicate-free list), a repeated email is
emitted once, the non-empty categories are joined by `";"` in the order
emails, URLs, phones, and an empty or fully-filtered category is omitted
entirely (no stray separator). -/
theorem c7_contact_details :
    (∀ l : List String, (sortStr l.dedup).Nodup) ∧
    extractContactDetails "Reach out at hr@acme.com or again hr@acme.com" = "hr@acme.com" ∧
    extractContactDetails "hr@acme.com www.acme.com 03001234567" =
      "hr@acme.com;www.acme.com;03001234567" ∧
    extractContactDetails "call 03001234567" = "03001234567" ∧
    extractContactDetails "call 123456" = "" := by
  refine ⟨fun l => nodup_sortStr _ (List.nodup_dedup l), by decide, by decide, by decide,
    by decide⟩

/-! ## Whitespace normalization is a retraction

`clean_csv_field` output never changes under a second normalization: its
whitespace is single isolated spaces and it has no whitespace at either
end.  These lemmas support the amended claim C2. -/

/-- No two adjacent whitespace characters. -/
def noWsPair : List Char → Prop
  | [] => True
  | [_] => True
  | a :: b :: rest => ¬ (pyIsSpace a = true ∧ pyIsSpace b = true) ∧ noWsPair (b :: rest)

/-- The head, if any, is not whitespace. -/
def headNonWs (l : List Char) : Prop := ∀ d, l.head? = some d → pyIsSpace d = false

/-- The last element, if any, is not whitespace. -/
def lastNonWs (l : List Char) : Prop := ∀ d, l.getLast? = some d → pyIsSpace d = false

/-- Every whitespace character is a plain space. -/
def allWsSp (l : List Char) : Prop := ∀ c ∈ l, pyIsSpace c = true → c = ' '

theorem noWsPair_cons (c : Char) (l : List Char) :
    noWsPair (c :: l) ↔
      (∀ d, l.head? = some d → ¬ (pyIsSpace c = true ∧ pyIsSpace d = true)) ∧
        noWsPair l := by
  cases l with
  | nil => simp [noWsPair]
  | cons b bs => simp [noWsPair]

theorem noWsPair_tail (c : Char) (l : List Char) (h : noWsPair (c :: l)) : noWsPair l :=
  ((noWsPair_cons c l).mp h).2

theorem collapse_noWsPair : ∀ l : List Char,
    noWsPair (collapseWsAux false l) ∧ noWsPair (collapseWsAux true l) ∧
      headNonWs (collapseWsAux true l) := by
  intro l
  induction l with
  | nil => refine ⟨trivial, trivial, ?_⟩; intro d hd; simp [collapseWsAux] at hd
  | cons c rest ih =>
    obtain ⟨ihf, iht, ihh⟩ := ih
    by_cases hc : pyIsSpace c
    · have hef : collapseWsAux false (c :: rest) = ' ' :: collapseWsAux true rest := by
        simp [collapseWsAux, hc]
      have het : collapseWsAux true (c :: rest) = collapseWsAux true rest := by
        simp [collapseWsAux, hc]
      refine ⟨?_, by rw [het]; exact iht, by rw [het]; exact ihh⟩
      rw [hef, noWsPair_cons]
      refine ⟨?_, iht⟩
      intro d hd hand
      have := ihh d hd
      rw [this] at hand
      exact Bool.false_ne_true hand.2
    · have he : ∀ b : Bool, collapseWsAux b (c :: rest) = c :: collapseWsAux false rest := by
        intro b; cases b <;> simp [collapseWsAux, hc]
      have hnp : noWsPair (c :: collapseWsAux false rest) := by
        rw [noWsPair_cons]
        refine ⟨?_, ihf⟩
        intro d _ hand
        exact hc hand.1
      refine ⟨by rw [he false]; exact hnp, by rw [he true]; exact hnp, ?_⟩
      rw [he true]
      intro d hd
      simp only [List.head?_cons, Option.some.injEq] at hd
      subst hd
      rwa [Bool.not_eq_true] at hc

theorem collapse_allWsSp : ∀ (l : List Char) (b : Bool), allWsSp (collapseWsAux b l) := by
  intro l
  induction l with
  | nil => intro b c hc; simp [collapseWsAux] at hc
  | cons c rest ih =>
    intro b
    by_cases hc : pyIsSpace c
    · cases b
      · have he : collapseWsAux false (c :: rest) = ' ' :: collapseWsAux true rest := by
          simp [collapseWsAux, hc]
        rw [he]
        intro d hd hws
        rcases List.mem_cons.mp hd with h1 | h1
        · exact h1
        · exact ih true d h1 hws
      · have he : collapseWsAux true (c :: rest) = collapseWsAux true rest := by
          simp [collapseWsAux, hc]
        rw [he]; exact ih true
    · have he : collapseWsAux b (c :: rest) = c :: collapseWsAux false rest := by
        cases b <;> simp [collapseWsAux, hc]
      rw [he]
      intro d hd hws
      rcases List.mem_cons.mp hd with h1 | h1
      · subst h1
        rw [Bool.not_eq_true] at hc
        rw [hc] at hws
        exact absurd hws Bool.false_ne_true
      · exact ih false d h1 hws

theorem noWsPair_dropWhile (p : Char → Bool) :
    ∀ l : List Char, noWsPair l → noWsPair (l.dropWhile p) := by
  intro l
  induction l with
  | nil => exact fun h => h
  | cons c rest ih =>
    intro h
    by_cases hc : p c
    · rw [List.dropWhile_cons_of_pos hc]
      exact ih (noWsPair_tail c rest h)
    · rwa [List.dropWhile_cons_of_neg hc]

theorem headNonWs_dropWhile : ∀ l : List Char, headNonWs (l.dropWhile pyIsSpace) := by
  intro l
  induction l with
  | nil => intro d hd; simp at hd
  | cons c rest ih =>
    by_cases hc : pyIsSpace c
    · rw [List.dropWhile_cons_of_pos hc]; exact ih
    · rw [List.dropWhile_cons_of_neg hc]
      intro d hd
      simp only [List.head?_cons, Option.some.injEq] at hd
      subst hd
      rwa [Bool.not_eq_true] at hc

theorem mem_dropWhile (p : Char → Bool) :
    ∀ (l : List Char) (c : Char), c ∈ l.dropWhile p → c ∈ l := by
  intro l
  induction l with
  | nil => intro c hc; simp at hc
  | cons x rest ih =>
    intro c hc
    by_cases hx : p x
    · rw [List.dropWhile_cons_of_pos hx] at hc
      exact List.mem_cons_of_mem x (ih c hc)
    · rwa [List.dropWhile_cons_of_neg hx] at hc

theorem dropTrailingWs_cons (c : Char) (rest : List Char) :
    dropTrailingWs (c :: rest) =
      if dropTrailingWs rest = [] ∧ pyIsSpace c then [] else c :: dropTrailingWs rest := rfl

theorem dropTrailingWs_head : ∀ l : List Char,
    dropTrailingWs l = [] ∨ (dropTrailingWs l).head? = l.head? := by
  intro l
  cases l with
  | nil => exact Or.inl rfl
  | cons c rest =>
    rw [dropTrailingWs_cons]
    by_cases h : dropTrailingWs rest = [] ∧ pyIsSpace c
    · left; rw [if_pos h]
    · right; rw [if_neg h]; rfl

theorem noWsPair_dropTrailingWs :
    ∀ l : List Char, noWsPair l → noWsPair (dropTrailingWs l) := by
  intro l
  induction l with
  | nil => exact fun h => h
  | cons c rest ih =>
    intro h
    rw [dropTrailingWs_cons]
    by_cases hcond : dropTrailingWs rest = [] ∧ pyIsSpace c
    · rw [if_pos hcond]; trivial
    · rw [if_neg hcond, noWsPair_cons]
      refine ⟨?_, ih (noWsPair_tail c rest h)⟩
      intro d hd
      rcases dropTrailingWs_head rest with h0 | h0
      · rw [h0] at hd; simp at hd
      · rw [h0] at hd
        exact ((noWsPair_cons c rest).mp h).1 d hd

theorem lastNonWs_dropTrailingWs : ∀ l : List Char, lastNonWs (dropTrailingWs l) := by
  intro l
  induction l with
  | nil => intro d hd; simp [dropTrailingWs] at hd
  | cons c rest ih =>
    rw [dropTrailingWs_cons]
    by_cases hcond : dropTrailingWs rest = [] ∧ pyIsSpace c
    · rw [if_pos hcond]; intro d hd; simp at hd
    · rw [if_neg hcond]
      intro d hd
      rcases eq_or_ne (dropTrailingWs rest) [] with hr | hr
      · rw [hr] at hd
        simp only [List.getLast?_singleton, Option.some.injEq] at hd
        subst hd
        by_contra hws
        rw [Bool.not_eq_false] at hws
        exact hcond ⟨hr, hws⟩
      · obtain ⟨x, xs, hxx⟩ := List.exists_cons_of_ne_nil hr
        rw [hxx, List.getLast?_cons_cons] at hd
        exact ih d (by rw [hxx]; exact hd)

theorem mem_dropTrailingWs : ∀ (l : List Char) (c : Char), c ∈ dropTrailingWs l → c ∈ l := by
  intro l
  induction l with
  | nil => intro c hc; simp [dropTrailingWs] at hc
  | cons x rest ih =>
    intro c hc
    rw [dropTrailingWs_cons] at hc
    by_cases hcond : dropTrailingWs rest = [] ∧ pyIsSpace x
    · rw [if_pos hcond] at hc; simp at hc
    · rw [if_neg hcond] at hc
      rcases List.mem_cons.mp hc with h1 | h1
      · subst h1; exact List.mem_cons_self c rest
      · exact List.mem_cons_of_mem x (ih c h1)

theorem dropWhile_eq_self_of_headNonWs :
    ∀ l : List Char, headNonWs l → l.dropWhile pyIsSpace = l := by
  intro l h
  cases l with
  | nil => rfl
  | cons c rest =>
    have hc := h c rfl
    rw [List.dropWhile_cons_of_neg (by rw [hc]; exact Bool.false_ne_true)]

theorem dropTrailingWs_eq_self :
    ∀ l : List Char, lastNonWs l → dropTrailingWs l = l := by
  intro l
  induction l with
  | nil => intro _; rfl
  | cons c rest ih =>
    intro h
    rw [dropTrailingWs_cons]
    rcases eq_or_ne rest [] with hr | hr
    · subst hr
      have hc := h c (by simp)
      rw [if_neg (fun hcond => Bool.false_ne_true (hc ▸ hcond.2))]
      rfl
    · have hrest : lastNonWs rest := by
        intro d hd
        obtain ⟨x, xs, hxx⟩ := List.exists_cons_of_ne_nil hr
        apply h d
        rw [hxx, List.getLast?_cons_cons]
        rw [hxx] at hd
        exact hd
      rw [ih hrest, if_neg (fun hcond => hr hcond.1)]

theorem collapse_eq_self : ∀ l : List Char,
    noWsPair l → allWsSp l → lastNonWs l →
    (collapseWsAux false l = l ∧ (headNonWs l → collapseWsAux true l = l)) := by
  intro l
  induction l with
  | nil => intro _ _ _; exact ⟨rfl, fun _ => rfl⟩
  | cons c rest ih =>
    intro hp ha hl
    by_cases hc : pyIsSpace c
    · have hcsp : c = ' ' := ha c (List.mem_cons_self c rest) hc
      cases rest with
      | nil =>
        exfalso
        have hlast := hl c (by simp)
        rw [hlast] at hc
        exact Bool.false_ne_true hc
      | cons b bs =>
        have hb : pyIsSpace b = false := by
          have hpair := ((noWsPair_cons c (b :: bs)).mp hp).1 b rfl
          by_contra hbb
          rw [Bool.not_eq_false] at hbb
          exact hpair ⟨hc, hbb⟩
        have hrestp : noWsPair (b :: bs) := noWsPair_tail _ _ hp
        have hresta : allWsSp (b :: bs) := fun x hx => ha x (List.mem_cons_of_mem c hx)
        have hrestl : lastNonWs (b :: bs) := by
          intro d hd
          exact hl d (by rw [List.getLast?_cons_cons]; exact hd)
        obtain ⟨_, iht⟩ := ih hrestp hresta hrestl
        have h1 : collapseWsAux true (b :: bs) = b :: bs := by
          refine iht ?_
          intro d hd
          simp only [List.head?_cons, Option.some.injEq] at hd
          subst hd
          exact hb
        constructor
        · have he : collapseWsAux false (c :: b :: bs) = ' ' :: collapseWsAux true (b :: bs) := by
            simp [collapseWsAux, hc]
          rw [he, h1, hcsp]
        · intro hh
          exfalso
          have := hh c rfl
          rw [this] at hc
          exact Bool.false_ne_true hc
    · have hcf : pyIsSpace c = false := by rwa [Bool.not_eq_true] at hc
      have hrestp : noWsPair rest := noWsPair_tail _ _ hp
      have hresta : allWsSp rest := fun x hx => ha x (List.mem_cons_of_mem c hx)
      have hrestl : lastNonWs rest := by
        cases rest with
        | nil => intro d hd; simp at hd
        | cons b bs =>
          intro d hd
          exact hl d (by rw [List.getLast?_cons_cons]; exact hd)
      obtain ⟨ihf, _⟩ := ih hrestp hresta hrestl
      have he : ∀ b : Bool, collapseWsAux b (c :: rest) = c :: collapseWsAux false rest := by
        intro b; cases b <;> simp [collapseWsAux, hc]
      exact ⟨by rw [he false, ihf], fun _ => by rw [he true, ihf]⟩

/-- Normalization `clean_csv_field` is idempotent: normalizing an already-normalized
string returns it unchanged. -/
theorem cleanCsvField_idem (s : String) :
    cleanCsvField (cleanCsvField s) = cleanCsvField s := by
  set o := collapseWsAux false s.data with ho
  have hop : noWsPair o := (collapse_noWsPair s.data).1
  have hoa : allWsSp o := collapse_allWsSp s.data false
  have htp : noWsPair (pyStripL o) :=
    noWsPair_dropTrailingWs _ (noWsPair_dropWhile _ _ hop)
  have hta : allWsSp (pyStripL o) := fun c hc hws =>
    hoa c (mem_dropWhile _ _ c (mem_dropTrailingWs _ c hc)) hws
  have hth : headNonWs (pyStripL o) := by
    intro d hd
    rcases dropTrailingWs_head (o.dropWhile pyIsSpace) with h0 | h0
    · rw [show pyStripL o = dropTrailingWs (o.dropWhile pyIsSpace) from rfl, h0] at hd
      simp at hd
    · rw [show pyStripL o = dropTrailingWs (o.dropWhile pyIsSpace) from rfl, h0] at hd
      exact headNonWs_dropWhile o d hd
  have htl : lastNonWs (pyStripL o) := lastNonWs_dropTrailingWs _
  have hc1 : collapseWsAux false (pyStripL o) = pyStripL o :=
    (collapse_eq_self _ htp hta htl).1
  have hc2 : pyStripL (pyStripL o) = pyStripL o := by
    show dropTrailingWs ((pyStripL o).dropWhile pyIsSpace) = pyStripL o
    rw [dropWhile_eq_self_of_headNonWs _ hth]
    exact dropTrailingWs_eq_self _ htl
  have hstep : cleanCsvField (cleanCsvField s) =
      (⟨pyStripL (collapseWsAux false (pyStripL o))⟩ : String) := rfl
  rw [hstep, hc1, hc2]
  rfl

/-- C2 counterexample: the header record the sink actually writes is
`csvHeaders`, and it is not the claimed 12 labels — for instance the second
label is `"Job Tittle"`, not `"Job Title"`, and the last is
`"salary Pkg"`, not `"Salary Package"`. -/
theorem c2_header_counterexample :
    writeCsvRecords [] = [csvHeaders] ∧
    ¬ (csvHeaders =
      ["Author name", "Job Title", "Location", "Job type", "Remote/Onsite",
       "Job Description", "Post Date/Time", "Required Qualification",
       "Required Skills", "Post Link", "Contact Details", "Salary Package"]) := by
  exact ⟨rfl, by decide⟩

/-- C2 (amended): the sink writes a UTF-8 byte-order marker followed by the
records; the first record is exactly the source's 12 header labels in order
(`csvHeaders`); each data row follows the same column order with every
field passed through `clean_csv_field`; and that normalization is
idempotent, so every emitted field is a fixed point of whitespace
normalization. -/
theorem c2_write_csv_amended (rows : List (List (String × String))) :
    writeCsv rows = "\uFEFF" ++ String.join ((writeCsvRecords rows).map csvRecord) ∧
    writeCsvRecords rows =
      csvHeaders :: rows.map (fun r => csvHeaders.map (fun h => cleanCsvField (dictGet r h))) ∧
    (∀ s : String, cleanCsvField (cleanCsvField s) = cleanCsvField s) := by
  exact ⟨rfl, rfl, cleanCsvField_idem⟩
